import Mathlib

/-!
Verification of rkflashtool (src/rkflashtool.c) against its natural-language
specification.  The C program is shallowly embedded: buffers are lists of
byte values (Nat, kept below 256), machine integers are Nat or Int with
explicit `% 2^w` where wraparound matters, and the transfer loops become
recursive functions producing the trace of USB operations they would issue.
-/

/-! ## Constants from rkflashtool.c -/

/-- `#define RKFT_BLOCKSIZE 0x4000` (rkflashtool.c:50). -/
def RKFT_BLOCKSIZE : Nat := 0x4000

/-- `#define RKFT_IDB_DATASIZE 0x200` (rkflashtool.c:51). -/
def RKFT_IDB_DATASIZE : Nat := 0x200

/-- `#define RKFT_IDB_BLOCKSIZE 0x210` (rkflashtool.c:52). -/
def RKFT_IDB_BLOCKSIZE : Nat := 0x210

/-- `#define RKFT_IDB_INCR 0x20` (rkflashtool.c:53). -/
def RKFT_IDB_INCR : Nat := 0x20

/-- `#define RKFT_OFF_INCR (RKFT_BLOCKSIZE>>9)` (rkflashtool.c:55);
`>> 9` is division by `2^9`. -/
def RKFT_OFF_INCR : Nat := RKFT_BLOCKSIZE / 2 ^ 9

/-- `#define MAX_PARAM_LENGTH (128*512-12)` (rkflashtool.c:56). -/
def MAX_PARAM_LENGTH : Nat := 128 * 512 - 12

/-- `#define SDRAM_BASE_ADDRESS 0x60000000` (rkflashtool.c:57). -/
def SDRAM_BASE_ADDRESS : Int := 0x60000000

/-- `#define USB_BULK_CB_WRAP_LEN 31` (rkflashtool.c:177). -/
def USB_BULK_CB_WRAP_LEN : Nat := 31

/-! Command opcodes (rkflashtool.c:67-97). -/

def RKFT_CMD_TESTUNITREADY : Nat := 0x80000600
def RKFT_CMD_READFLASHID : Nat := 0x80000601
def RKFT_CMD_READFLASHINFO : Nat := 0x8000061a
def RKFT_CMD_READCHIPINFO : Nat := 0x8000061b
def RKFT_CMD_READEFUSE : Nat := 0x80000620
def RKFT_CMD_SETDEVICEINFO : Nat := 0x00000602
def RKFT_CMD_ERASESYSTEMDISK : Nat := 0x00000616
def RKFT_CMD_SETRESETFLASG : Nat := 0x0000061e
def RKFT_CMD_RESETDEVICE : Nat := 0x000006ff
def RKFT_CMD_TESTBADBLOCK : Nat := 0x80000a03
def RKFT_CMD_READSECTOR : Nat := 0x80000a04
def RKFT_CMD_READLBA : Nat := 0x80000a14
def RKFT_CMD_READSDRAM : Nat := 0x80000a17
def RKFT_CMD_WRITESECTOR : Nat := 0x00000a05
def RKFT_CMD_ERASESECTORS : Nat := 0x00000a06
def RKFT_CMD_WRITELBA : Nat := 0x00000a15
def RKFT_CMD_WRITESDRAM : Nat := 0x00000a18
def RKFT_CMD_EXECUTESDRAM : Nat := 0x00000a19
def RKFT_CMD_WRITEEFUSE : Nat := 0x00000a1f
def RKFT_CMD_WRITESPARE : Nat := 0x80001007
def RKFT_CMD_READSPARE : Nat := 0x80001008
def RKFT_CMD_LOWERFORMAT : Nat := 0x0000001c
def RKFT_CMD_WRITENKB : Nat := 0x00000030

/-! ## Little-endian and big-endian byte helpers -/

/-- Modelled from the spec: `PUT32LE` (rkflashtool.h, not in src/) stores a
32-bit value little-endian, one byte per cell.  `(v >> k) & 0xff` is
`v / 2^k % 256`. -/
def le32 (v : Nat) : List Nat :=
  [v % 256, v / 2 ^ 8 % 256, v / 2 ^ 16 % 256, v / 2 ^ 24 % 256]

/-- Read a 32-bit little-endian value from a byte list at index `i`
(out-of-range cells read as 0), as a host little-endian `uint32_t` load does. -/
def le32get (l : List Nat) (i : Nat) : Nat :=
  l.getD i 0 + 2 ^ 8 * l.getD (i + 1) 0 + 2 ^ 16 * l.getD (i + 2) 0 +
    2 ^ 24 * l.getD (i + 3) 0

/-- `SETBE32` (rkflashtool.c:104-109): big-endian bytes of a 32-bit value. -/
def be32 (v : Nat) : List Nat :=
  [v / 2 ^ 24 % 256, v / 2 ^ 16 % 256, v / 2 ^ 8 % 256, v % 256]

/-- `SETBE16` (rkflashtool.c:99-102): big-endian bytes of a 16-bit value. -/
def be16 (v : Nat) : List Nat :=
  [v / 2 ^ 8 % 256, v % 256]

/-- Read a big-endian 32-bit value at index `i`. -/
def getBE32 (l : List Nat) (i : Nat) : Nat :=
  2 ^ 24 * l.getD i 0 + 2 ^ 16 * l.getD (i + 1) 0 + 2 ^ 8 * l.getD (i + 2) 0 +
    l.getD (i + 3) 0

/-- Read a big-endian 16-bit value at index `i`. -/
def getBE16 (l : List Nat) (i : Nat) : Nat :=
  2 ^ 8 * l.getD i 0 + l.getD (i + 1) 0

/-- Reinterpret the low 32 bits of a natural as a signed C `int`. -/
def toInt32 (n : Nat) : Int :=
  if n % 2 ^ 32 < 2 ^ 31 then ((n % 2 ^ 32 : Nat) : Int)
  else ((n % 2 ^ 32 : Nat) : Int) - 2 ^ 32

/-! ## CRC codecs

The per-byte CRC steps come from `rkcrc.h`, which is not under src/; they are
modelled from the spec's description of the CRC codecs (16-bit and 32-bit),
realized as the standard shift-register form with the tool's polynomials.  The
`% 2^w` models the fixed-width left shift, `&&& 0x8000...` the top-bit test. -/

/-- Modelled from the spec: one shift of the 32-bit CRC register
(`rkcrc.h`, not in src/), polynomial `0x04c10db7`. -/
def crcShift32 (c : Nat) : Nat :=
  if c &&& 0x80000000 ≠ 0 then (2 * c % 2 ^ 32) ^^^ 0x04c10db7
  else 2 * c % 2 ^ 32

/-- Iterate `crcShift32`. -/
def crcShifts32 : Nat → Nat → Nat
  | 0, c => c
  | n + 1, c => crcShifts32 n (crcShift32 c)

/-- Modelled from the spec: the 32-bit CRC byte step (`rkcrc.h`, not in src/):
xor the byte into the top register byte, then shift eight times. -/
def rkcrcStep32 (c b : Nat) : Nat :=
  crcShifts32 8 (c ^^^ b * 2 ^ 24)

/-- Modelled from the spec: `rkcrc32` (`rkcrc.h`, not in src/) folds the
byte step over the buffer. -/
def rkcrc32 (c : Nat) (l : List Nat) : Nat :=
  l.foldl rkcrcStep32 c

/-- Modelled from the spec: one shift of the 16-bit CRC register
(`rkcrc.h`, not in src/), polynomial `0x1021`. -/
def crcShift16 (c : Nat) : Nat :=
  if c &&& 0x8000 ≠ 0 then (2 * c % 2 ^ 16) ^^^ 0x1021
  else 2 * c % 2 ^ 16

/-- Iterate `crcShift16`. -/
def crcShifts16 : Nat → Nat → Nat
  | 0, c => c
  | n + 1, c => crcShifts16 n (crcShift16 c)

/-- Modelled from the spec: the 16-bit CRC byte step (`rkcrc.h`, not in src/). -/
def rkcrcStep16 (c b : Nat) : Nat :=
  crcShifts16 8 (c ^^^ b * 2 ^ 8)

/-- Modelled from the spec: `rkcrc16` (`rkcrc.h`, not in src/). -/
def rkcrc16 (c : Nat) (l : List Nat) : Nat :=
  l.foldl rkcrcStep16 c

/-- The two CRC bytes appended by the loader paths (rkflashtool.c:427-428):
high byte first, each store truncated to a `uint8_t`. -/
def crc16bytes (c : Nat) : List Nat :=
  [c / 2 ^ 8 % 256, c % 256]

/-! ## Parameter block codec (rkflashtool.c cases 'p' and 'P') -/

/-- Outcome of the parameter reader (case 'p'): the payload, or one of the
two fatal failures. -/
inductive ParamResult where
  | ok (payload : List Nat)
  | lenViolation
  | crcMismatch
deriving DecidableEq, Repr

/-- The fatal length test of case 'p' (rkflashtool.c:616):
`size < 0 || size > MAX_PARAM_LENGTH` on the `int`-cast length word. -/
def paramLenBad (n : Nat) : Bool :=
  if toInt32 n < 0 ∨ (MAX_PARAM_LENGTH : Int) < toInt32 n then true else false

/-- The `"PARM"` magic written by case 'P' (rkflashtool.c:633). -/
def parmMagic : List Nat := [80, 65, 82, 77]

/-- Case 'P' (rkflashtool.c:630-648): magic at 0, little-endian length at 4,
payload from 8, CRC-32 of the payload immediately after (via `PUT32LE`). -/
def encodeParam (payload : List Nat) : List Nat :=
  parmMagic ++ le32 payload.length ++ payload ++ le32 (rkcrc32 0 payload)

/-- Case 'p' (rkflashtool.c:603-628): read the length word at offset 4, fail
fatally if it violates the bound, read the stored CRC at `8 + size`,
recompute the CRC over the payload and compare, then return the payload. -/
def decodeParam (blob : List Nat) : ParamResult :=
  let size := le32get blob 4
  if paramLenBad size then .lenViolation
  else
    let crcStored := le32get blob (8 + size)
    let crcCalc := rkcrc32 0 ((blob.drop 8).take size)
    if crcStored = crcCalc then .ok ((blob.drop 8).take size)
    else .crcMismatch


lemma top_bit_iff (c : Nat) (hc : c < 2 ^ 32) : c &&& 0x80000000 ≠ 0 ↔ 2 ^ 31 ≤ c := by
  have h1 : (0x80000000 : Nat) = 2 ^ 31 := by norm_num
  rw [h1, Nat.and_two_pow]
  rw [Nat.testBit_to_div_mod]
  rcases Nat.lt_or_ge c (2 ^ 31) with h | h
  · have hd : c / 2 ^ 31 = 0 := Nat.div_eq_of_lt h
    simp [hd]
    omega
  · have hd : c / 2 ^ 31 = 1 := by omega
    simp [hd]
    omega

lemma mod_two_xor (x y : Nat) : (x ^^^ y) % 2 = (x + y) % 2 := by
  have h := Nat.testBit_xor x y 0
  rw [Nat.testBit_to_div_mod, Nat.testBit_to_div_mod, Nat.testBit_to_div_mod] at h
  simp only [pow_zero, Nat.div_one] at h
  rcases Nat.mod_two_eq_zero_or_one x with hx | hx <;>
    rcases Nat.mod_two_eq_zero_or_one y with hy | hy <;>
      rcases Nat.mod_two_eq_zero_or_one (x ^^^ y) with hxy | hxy <;>
        simp [hx, hy, hxy] at h ⊢ <;> omega

lemma xor_right_cancel {a b p : Nat} (h : a ^^^ p = b ^^^ p) : a = b := by
  have h2 : a ^^^ p ^^^ p = b ^^^ p ^^^ p := by rw [h]
  simpa [Nat.xor_assoc, Nat.xor_self] using h2

lemma xor_left_cancel {a b p : Nat} (h : p ^^^ a = p ^^^ b) : a = b := by
  have h2 : p ^^^ (p ^^^ a) = p ^^^ (p ^^^ b) := by rw [h]
  simpa [← Nat.xor_assoc, Nat.xor_self, Nat.zero_xor] using h2

lemma crcShift32_lt (c : Nat) : crcShift32 c < 2 ^ 32 := by
  unfold crcShift32
  split
  · exact Nat.xor_lt_two_pow (Nat.mod_lt _ (by norm_num)) (by norm_num)
  · exact Nat.mod_lt _ (by norm_num)

lemma crcShift32_inj {c1 c2 : Nat} (h1 : c1 < 2 ^ 32) (h2 : c2 < 2 ^ 32)
    (h : crcShift32 c1 = crcShift32 c2) : c1 = c2 := by
  unfold crcShift32 at h
  split_ifs at h with b1 b2 b2
  · have e := xor_right_cancel h
    rw [top_bit_iff c1 h1] at b1
    rw [top_bit_iff c2 h2] at b2
    omega
  · exfalso
    have hp : ((2 * c1 % 2 ^ 32) ^^^ 0x04c10db7) % 2 = 1 := by
      rw [mod_two_xor]; omega
    rw [h] at hp
    omega
  · exfalso
    have hp : ((2 * c2 % 2 ^ 32) ^^^ 0x04c10db7) % 2 = 1 := by
      rw [mod_two_xor]; omega
    rw [← h] at hp
    omega
  · rw [top_bit_iff c1 h1] at b1
    rw [top_bit_iff c2 h2] at b2
    omega

lemma crcShifts32_lt (n : Nat) {c : Nat} (h : c < 2 ^ 32) : crcShifts32 n c < 2 ^ 32 := by
  induction n generalizing c with
  | zero => exact h
  | succ n ih => exact ih (crcShift32_lt c)

lemma crcShifts32_inj (n : Nat) {c1 c2 : Nat} (h1 : c1 < 2 ^ 32) (h2 : c2 < 2 ^ 32)
    (h : crcShifts32 n c1 = crcShifts32 n c2) : c1 = c2 := by
  induction n generalizing c1 c2 with
  | zero => exact h
  | succ n ih =>
    exact crcShift32_inj h1 h2 (ih (crcShift32_lt c1) (crcShift32_lt c2) h)

lemma rkcrcStep32_lt {c b : Nat} (hc : c < 2 ^ 32) (hb : b < 256) :
    rkcrcStep32 c b < 2 ^ 32 :=
  crcShifts32_lt 8 (Nat.xor_lt_two_pow hc (by omega))

lemma rkcrcStep32_inj_state {c1 c2 b : Nat} (h1 : c1 < 2 ^ 32) (h2 : c2 < 2 ^ 32)
    (hb : b < 256) (hne : c1 ≠ c2) : rkcrcStep32 c1 b ≠ rkcrcStep32 c2 b := by
  intro h
  exact hne (xor_right_cancel
    (crcShifts32_inj 8 (Nat.xor_lt_two_pow h1 (by omega))
      (Nat.xor_lt_two_pow h2 (by omega)) h))

lemma rkcrcStep32_inj_byte {c b1 b2 : Nat} (hc : c < 2 ^ 32) (hb1 : b1 < 256)
    (hb2 : b2 < 256) (hne : b1 ≠ b2) : rkcrcStep32 c b1 ≠ rkcrcStep32 c b2 := by
  intro h
  have e := xor_left_cancel
    (crcShifts32_inj 8 (Nat.xor_lt_two_pow hc (by omega))
      (Nat.xor_lt_two_pow hc (by omega)) h)
  exact hne (by omega)

lemma rkcrc32_cons (c b : Nat) (t : List Nat) :
    rkcrc32 c (b :: t) = rkcrc32 (rkcrcStep32 c b) t := rfl

lemma rkcrc32_lt : ∀ (l : List Nat) {c : Nat}, c < 2 ^ 32 → (∀ b ∈ l, b < 256) →
    rkcrc32 c l < 2 ^ 32 := by
  intro l
  induction l with
  | nil => intro c hc _; exact hc
  | cons a t ih =>
    intro c hc hb
    rw [rkcrc32_cons]
    exact ih (rkcrcStep32_lt hc (hb a (by simp))) (fun b hbm => hb b (by simp [hbm]))

lemma rkcrc32_ne_seed : ∀ (l : List Nat) {c1 c2 : Nat}, c1 < 2 ^ 32 → c2 < 2 ^ 32 →
    (∀ b ∈ l, b < 256) → c1 ≠ c2 → rkcrc32 c1 l ≠ rkcrc32 c2 l := by
  intro l
  induction l with
  | nil => intro c1 c2 _ _ _ hne; exact hne
  | cons a t ih =>
    intro c1 c2 h1 h2 hb hne
    rw [rkcrc32_cons, rkcrc32_cons]
    have ha : a < 256 := hb a (by simp)
    exact ih (rkcrcStep32_lt h1 ha) (rkcrcStep32_lt h2 ha)
      (fun b hbm => hb b (by simp [hbm]))
      (rkcrcStep32_inj_state h1 h2 ha hne)

lemma rkcrc32_set_ne : ∀ (l : List Nat) (i : Nat) {b' c : Nat}, c < 2 ^ 32 →
    (∀ b ∈ l, b < 256) → b' < 256 → i < l.length → b' ≠ l.getD i 0 →
    rkcrc32 c l ≠ rkcrc32 c (l.set i b') := by
  intro l
  induction l with
  | nil => intro i b' c _ _ _ hi; simp at hi
  | cons a t ih =>
    intro i b' c hc hb hb' hi hne
    have ha : a < 256 := hb a (by simp)
    cases i with
    | zero =>
      rw [List.set_cons_zero, rkcrc32_cons, rkcrc32_cons]
      exact rkcrc32_ne_seed t (rkcrcStep32_lt hc ha) (rkcrcStep32_lt hc hb')
        (fun b hbm => hb b (by simp [hbm]))
        (rkcrcStep32_inj_byte hc ha hb' (fun e => hne (by simp [e])))
    | succ j =>
      rw [List.set_cons_succ, rkcrc32_cons, rkcrc32_cons]
      exact ih j (rkcrcStep32_lt hc ha) (fun b hbm => hb b (by simp [hbm])) hb'
        (by simpa using hi) hne

lemma le32get_at (pre rest : List Nat) (v : Nat) (hv : v < 2 ^ 32) :
    le32get (pre ++ (le32 v ++ rest)) pre.length = v := by
  have h0 : ∀ k : Nat, k < 4 →
      (pre ++ (le32 v ++ rest)).getD (pre.length + k) 0 = (le32 v).getD k 0 := by
    intro k hk
    rw [List.getD_append_right _ _ _ _ (Nat.le_add_right _ _), Nat.add_sub_cancel_left,
        List.getD_append _ _ _ _ (by simp [le32]; omega)]
  have e0 := h0 0 (by norm_num)
  have e1 := h0 1 (by norm_num)
  have e2 := h0 2 (by norm_num)
  have e3 := h0 3 (by norm_num)
  rw [Nat.add_zero] at e0
  unfold le32get
  rw [e0, e1, e2, e3]
  simp only [le32, List.getD_cons_zero, List.getD_cons_succ]
  omega

lemma paramLenBad_le {n : Nat} (h : n ≤ MAX_PARAM_LENGTH) : paramLenBad n = false := by
  have hmax : MAX_PARAM_LENGTH = 65524 := by norm_num [MAX_PARAM_LENGTH]
  have hm : n % 2 ^ 32 = n := Nat.mod_eq_of_lt (by omega)
  have hlt : n % 2 ^ 32 < 2 ^ 31 := by omega
  unfold paramLenBad toInt32
  rw [if_pos hlt, if_neg]
  push_neg
  constructor
  · rw [hm]; exact Int.ofNat_nonneg n
  · rw [hm]; exact_mod_cast h

lemma decodeParam_shape (Q : List Nat) (t : Nat)
    (hN : Q.length ≤ MAX_PARAM_LENGTH) (ht : t < 2 ^ 32) :
    decodeParam (parmMagic ++ le32 Q.length ++ Q ++ le32 t) =
      if t = rkcrc32 0 Q then .ok Q else .crcMismatch := by
  have hNlt : Q.length < 2 ^ 32 := by
    have : MAX_PARAM_LENGTH = 65524 := by norm_num [MAX_PARAM_LENGTH]
    omega
  have hsize : le32get (parmMagic ++ le32 Q.length ++ Q ++ le32 t) 4 = Q.length := by
    have := le32get_at parmMagic (Q ++ le32 t) Q.length hNlt
    simpa [List.append_assoc, parmMagic] using this
  have hdrop : (parmMagic ++ le32 Q.length ++ Q ++ le32 t).drop 8 = Q ++ le32 t := by
    have h8 : (parmMagic ++ le32 Q.length).length = 8 := by simp [parmMagic, le32]
    calc (parmMagic ++ le32 Q.length ++ Q ++ le32 t).drop 8
        = ((parmMagic ++ le32 Q.length) ++ (Q ++ le32 t)).drop
            (parmMagic ++ le32 Q.length).length := by
          rw [h8, List.append_assoc]
      _ = Q ++ le32 t := List.drop_left _ _
  have htake : (Q ++ le32 t).take Q.length = Q := List.take_left _ _
  have hstored : le32get (parmMagic ++ le32 Q.length ++ Q ++ le32 t) (8 + Q.length) = t := by
    have h := le32get_at (parmMagic ++ le32 Q.length ++ Q) [] t ht
    have hpl : (parmMagic ++ le32 Q.length ++ Q).length = 8 + Q.length := by
      simp [parmMagic, le32]; omega
    rw [hpl] at h
    simpa [List.append_assoc] using h
  unfold decodeParam
  rw [hsize]
  simp only [paramLenBad_le hN, Bool.false_eq_true, if_false, hstored, hdrop, htake]

theorem C4_param_roundtrip (P : List Nat) (i b' : Nat) (hbytes : ∀ b ∈ P, b < 256)
    (hlen : P.length ≤ MAX_PARAM_LENGTH) (hi : i < P.length) (hb' : b' < 256)
    (hne : b' ≠ P.getD i 0) :
    decodeParam (encodeParam P) = .ok P ∧
      decodeParam ((encodeParam P).set (8 + i) b') = .crcMismatch := by
  have hcrc_lt : rkcrc32 0 P < 2 ^ 32 := rkcrc32_lt P (by norm_num) hbytes
  refine ⟨?_, ?_⟩
  · rw [encodeParam, decodeParam_shape P _ hlen hcrc_lt, if_pos rfl]
  · have hset : (encodeParam P).set (8 + i) b' =
        parmMagic ++ le32 (P.set i b').length ++ P.set i b' ++ le32 (rkcrc32 0 P) := by
      unfold encodeParam
      rw [List.set_append, if_pos (by simp [parmMagic, le32]; omega),
          List.set_append, if_neg (by simp [parmMagic, le32])]
      have h8 : (parmMagic ++ le32 P.length).length = 8 := by simp [parmMagic, le32]
      rw [h8, Nat.add_sub_cancel_left, List.length_set]
    rw [hset, decodeParam_shape _ _ (by simp [List.length_set, hlen]) hcrc_lt, if_neg]
    exact rkcrc32_set_ne P i (by norm_num) hbytes hb' hi hne

/-- Witness for C4 at the concrete payload [1, 2, 3], flipping payload byte 1
(blob index 9) from 2 to 9. -/
theorem C4_param_roundtrip_witness :
    decodeParam (encodeParam [1, 2, 3]) = .ok [1, 2, 3] ∧
      decodeParam ((encodeParam [1, 2, 3]).set 9 9) = .crcMismatch :=
  C4_param_roundtrip [1, 2, 3] 1 9 (by decide) (by decide) (by decide) (by decide)
    (by decide)

lemma getD_lt_256 (l : List Nat) (hb : ∀ b ∈ l, b < 256) (i : Nat) : l.getD i 0 < 256 := by
  rcases Nat.lt_or_ge i l.length with h | h
  · rw [List.getD_eq_getElem l 0 h]
    exact hb _ (List.getElem_mem h)
  · rw [List.getD_eq_default l 0 h]
    norm_num

lemma le32get_lt (l : List Nat) (hb : ∀ b ∈ l, b < 256) (i : Nat) :
    le32get l i < 2 ^ 32 := by
  have h0 := getD_lt_256 l hb i
  have h1 := getD_lt_256 l hb (i + 1)
  have h2 := getD_lt_256 l hb (i + 2)
  have h3 := getD_lt_256 l hb (i + 3)
  unfold le32get
  omega

lemma paramLenBad_iff {n : Nat} (hn : n < 2 ^ 32) :
    paramLenBad n = true ↔ MAX_PARAM_LENGTH < n := by
  have hmax : MAX_PARAM_LENGTH = 65524 := by norm_num [MAX_PARAM_LENGTH]
  have hm : n % 2 ^ 32 = n := Nat.mod_eq_of_lt hn
  unfold paramLenBad toInt32
  rw [hm]
  split_ifs with h1 h2 h2
  · simp only [true_iff]
    rcases h2 with h2 | h2
    · omega
    · rw [hmax] at h2 ⊢; exact_mod_cast h2
  · simp only [false_iff, not_lt]
    push_neg at h2
    rw [hmax] at h2 ⊢
    omega
  · simp only [true_iff]
    omega
  · exfalso
    push_neg at h2
    omega

/-- Claim C2 counterexample: MAX_PARAM_LENGTH is not the fixed wire block size
minus 12 bytes. -/
theorem C2_counterexample : MAX_PARAM_LENGTH ≠ RKFT_BLOCKSIZE - 12 := by decide

/-- Claim C2 (amended): parameter decode fails with the fatal length violation
iff the decoded length exceeds MAX_PARAM_LENGTH = 128*512-12 = 65524 (which is
not the wire block size minus 12); the bound passes at MAX_PARAM_LENGTH and
fails at MAX_PARAM_LENGTH + 1, and a violating length yields the length error
regardless of the CRC bytes (the check precedes any CRC computation). -/
theorem C2_length_check (blob : List Nat) (hb : ∀ b ∈ blob, b < 256) :
    (decodeParam blob = .lenViolation ↔ MAX_PARAM_LENGTH < le32get blob 4)
    ∧ paramLenBad MAX_PARAM_LENGTH = false
    ∧ paramLenBad (MAX_PARAM_LENGTH + 1) = true := by
  have hlt : le32get blob 4 < 2 ^ 32 := le32get_lt blob hb 4
  refine ⟨?_, by decide, by decide⟩
  have hdec : decodeParam blob = .lenViolation ↔
      paramLenBad (le32get blob 4) = true := by
    unfold decodeParam
    by_cases h : paramLenBad (le32get blob 4) = true
    · simp [h]
    · simp only [h, Bool.false_eq_true, if_false]
      constructor
      · intro hcontra
        split at hcontra <;> simp_all
      · intro hcontra
        simp_all
  rw [hdec, paramLenBad_iff hlt]

/-- Witness for C2 at a concrete blob whose length word is 65525. -/
theorem C2_length_check_witness :
    (decodeParam [0, 0, 0, 0, 245, 255, 0, 0] = .lenViolation ↔
        MAX_PARAM_LENGTH < le32get [0, 0, 0, 0, 245, 255, 0, 0] 4)
    ∧ paramLenBad MAX_PARAM_LENGTH = false
    ∧ paramLenBad (MAX_PARAM_LENGTH + 1) = true :=
  C2_length_check [0, 0, 0, 0, 245, 255, 0, 0] (by decide)

/-- Claim C10: the parameter decoder reads the 4-byte CRC trailer at index
8 + size of the RKFT_BLOCKSIZE-byte buffer; that access stays in bounds only
for size ≤ 16372, yet the length check accepts sizes up to
MAX_PARAM_LENGTH = 65524, e.g. size 20000 is accepted while its trailer read
ends past the buffer. -/
theorem C10_crc_read_oob :
    (∀ s : Nat, 8 + s + 4 ≤ RKFT_BLOCKSIZE ↔ s ≤ 16372)
    ∧ paramLenBad 20000 = false
    ∧ RKFT_BLOCKSIZE < 8 + 20000 + 4
    ∧ paramLenBad MAX_PARAM_LENGTH = false
    ∧ MAX_PARAM_LENGTH = 65524 := by
  refine ⟨?_, by decide, by decide, by decide, by decide⟩
  intro s
  rw [show RKFT_BLOCKSIZE = 16384 from by norm_num [RKFT_BLOCKSIZE]]
  omega

/-- Write a run of bytes into a buffer starting at index `i` (the effect of a
`SETBE32`/`SETBE16`/`memcpy` store sequence). -/
def setBytes (l : List Nat) (i : Nat) : List Nat → List Nat
  | [] => l
  | b :: bs => setBytes (l.set i b) (i + 1) bs

/-- `send_cbw` (rkflashtool.c:255-291): zero the 31-byte wrapper, copy the
"USBC" signature, then write the random tag at 4, the offset at 17, the
sector count at 22, the command at 12 and the mode flag at 16, each only when
non-zero. -/
def send_cbw (command offset nsectors flag r : Nat) : List Nat :=
  let c0 := List.replicate USB_BULK_CB_WRAP_LEN 0
  let c1 := setBytes c0 0 [85, 83, 66, 67]
  let c2 := if r ≠ 0 then setBytes c1 4 (be32 r) else c1
  let c3 := if offset ≠ 0 then setBytes c2 17 (be32 offset) else c2
  let c4 := if nsectors ≠ 0 then setBytes c3 22 (be16 nsectors) else c3
  let c5 := if command ≠ 0 then setBytes c4 12 (be32 command) else c4
  if flag ≠ 0 then c5.set 16 flag else c5

set_option maxHeartbeats 2000000 in
lemma send_cbw_eq (command offset nsectors flag r : Nat) :
    send_cbw command offset nsectors flag r =
      [85, 83, 66, 67] ++ be32 r ++ [0, 0, 0, 0] ++ be32 command ++
        (flag :: be32 offset) ++ (0 :: be16 nsectors) ++ [0, 0, 0, 0, 0, 0, 0] := by
  unfold send_cbw
  split_ifs <;> simp only [ne_eq, not_not] at * <;> subst_vars <;> rfl

lemma be32_recompose (v : Nat) (hv : v < 2 ^ 32) :
    2 ^ 24 * (v / 2 ^ 24 % 256) + 2 ^ 16 * (v / 2 ^ 16 % 256) +
      2 ^ 8 * (v / 2 ^ 8 % 256) + v % 256 = v := by omega

lemma be16_recompose (v : Nat) (hv : v < 2 ^ 16) :
    2 ^ 8 * (v / 2 ^ 8 % 256) + v % 256 = v := by omega

/-- Claim C5: the encoded command frame is 31 bytes with the fixed signature
at 0, the tag big-endian at 4, the opcode big-endian at 12, the mode flag at
16, the offset big-endian at 17 and the length big-endian at 22; zero-valued
offset/length/modeFlag leave their wire bytes zero, and decoding the frame
reproduces each field. -/
theorem C5_cbw_frame (command offset nsectors flag r : Nat)
    (hc : command < 2 ^ 32) (ho : offset < 2 ^ 32) (hn : nsectors < 2 ^ 16)
    (hf : flag < 2 ^ 8) (hr : r < 2 ^ 32) :
    (send_cbw command offset nsectors flag r).length = USB_BULK_CB_WRAP_LEN
    ∧ (send_cbw command offset nsectors flag r).take 4 = [85, 83, 66, 67]
    ∧ getBE32 (send_cbw command offset nsectors flag r) 4 = r
    ∧ getBE32 (send_cbw command offset nsectors flag r) 12 = command
    ∧ (send_cbw command offset nsectors flag r).getD 16 0 = flag
    ∧ getBE32 (send_cbw command offset nsectors flag r) 17 = offset
    ∧ getBE16 (send_cbw command offset nsectors flag r) 22 = nsectors
    ∧ (offset = 0 →
        ((send_cbw command offset nsectors flag r).drop 17).take 4 = [0, 0, 0, 0])
    ∧ (nsectors = 0 →
        ((send_cbw command offset nsectors flag r).drop 22).take 2 = [0, 0])
    ∧ (flag = 0 → (send_cbw command offset nsectors flag r).getD 16 0 = 0) := by
  rw [send_cbw_eq]
  refine ⟨rfl, rfl, ?_, ?_, rfl, ?_, ?_, ?_, ?_, ?_⟩
  · show 2 ^ 24 * (r / 2 ^ 24 % 256) + 2 ^ 16 * (r / 2 ^ 16 % 256) +
      2 ^ 8 * (r / 2 ^ 8 % 256) + r % 256 = r
    exact be32_recompose r hr
  · show 2 ^ 24 * (command / 2 ^ 24 % 256) + 2 ^ 16 * (command / 2 ^ 16 % 256) +
      2 ^ 8 * (command / 2 ^ 8 % 256) + command % 256 = command
    exact be32_recompose command hc
  · show 2 ^ 24 * (offset / 2 ^ 24 % 256) + 2 ^ 16 * (offset / 2 ^ 16 % 256) +
      2 ^ 8 * (offset / 2 ^ 8 % 256) + offset % 256 = offset
    exact be32_recompose offset ho
  · show 2 ^ 8 * (nsectors / 2 ^ 8 % 256) + nsectors % 256 = nsectors
    exact be16_recompose nsectors hn
  · intro h
    subst h
    rfl
  · intro h
    subst h
    rfl
  · intro h
    subst h
    rfl

/-- Witness for C5 at a concrete frame: a flash read command at offset 0x2000
for 32 sectors, mode flag 3, tag 5. -/
theorem C5_cbw_frame_witness :
    (send_cbw RKFT_CMD_READLBA 0x2000 32 3 5).length = USB_BULK_CB_WRAP_LEN
    ∧ (send_cbw RKFT_CMD_READLBA 0x2000 32 3 5).take 4 = [85, 83, 66, 67]
    ∧ getBE32 (send_cbw RKFT_CMD_READLBA 0x2000 32 3 5) 4 = 5
    ∧ getBE32 (send_cbw RKFT_CMD_READLBA 0x2000 32 3 5) 12 = RKFT_CMD_READLBA
    ∧ (send_cbw RKFT_CMD_READLBA 0x2000 32 3 5).getD 16 0 = 3
    ∧ getBE32 (send_cbw RKFT_CMD_READLBA 0x2000 32 3 5) 17 = 0x2000
    ∧ getBE16 (send_cbw RKFT_CMD_READLBA 0x2000 32 3 5) 22 = 32
    ∧ (0x2000 = 0 →
        ((send_cbw RKFT_CMD_READLBA 0x2000 32 3 5).drop 17).take 4 = [0, 0, 0, 0])
    ∧ (32 = 0 →
        ((send_cbw RKFT_CMD_READLBA 0x2000 32 3 5).drop 22).take 2 = [0, 0])
    ∧ (3 = 0 → (send_cbw RKFT_CMD_READLBA 0x2000 32 3 5).getD 16 0 = 0) :=
  C5_cbw_frame RKFT_CMD_READLBA 0x2000 32 3 5 (by decide) (by decide) (by decide)
    (by decide) (by decide)

/-- `strstr`: index of the first occurrence of `needle` in `hay`. -/
def findSub (hay needle : List Char) : Option Nat :=
  if needle.isPrefixOf hay then some 0
  else
    match hay with
    | [] => none
    | _ :: t => (findSub t needle).map (· + 1)

/-- `strrchr`: index of the last occurrence of character `c` in `s`. -/
def rfind (s : List Char) (c : Char) : Option Nat :=
  match s with
  | [] => none
  | a :: t =>
    match rfind t c with
    | some j => some (j + 1)
    | none => if a = c then some 0 else none

/-- Value of a decimal digit character. -/
def digitVal (c : Char) : Nat := c.toNat - 48

/-- Hexadecimal digit test. -/
def isHexCh (c : Char) : Bool :=
  c.isDigit || (decide ('a' ≤ c) && decide (c ≤ 'f')) ||
    (decide ('A' ≤ c) && decide (c ≤ 'F'))

/-- Value of a hexadecimal digit character. -/
def hexVal (c : Char) : Nat :=
  if c.isDigit then c.toNat - 48
  else if decide ('a' ≤ c) && decide (c ≤ 'f') then c.toNat - 87
  else c.toNat - 55

/-- Octal digit test. -/
def isOctCh (c : Char) : Bool := decide ('0' ≤ c) && decide (c ≤ '7')

/-- Accumulate a maximal run of digits. -/
def parseDigits (base : Nat) (isD : Char → Bool) (val : Char → Nat) :
    Nat → List Char → Nat
  | acc, [] => acc
  | acc, c :: t => if isD c then parseDigits base isD val (acc * base + val c) t else acc

/-- `strtoul(s, NULL, 0)` on the non-negative inputs the resolver feeds it:
skip whitespace, `0x`/`0X` prefix means hexadecimal, a leading `0` octal,
otherwise decimal; parsing stops at the first non-digit. -/
def strtoul0 (s : List Char) : Nat :=
  match s.dropWhile Char.isWhitespace with
  | '0' :: 'x' :: t => parseDigits 16 isHexCh hexVal 0 t
  | '0' :: 'X' :: t => parseDigits 16 isHexCh hexVal 0 t
  | '0' :: t => parseDigits 8 isOctCh digitVal 0 t
  | t => parseDigits 10 Char.isDigit digitVal 0 t

/-- Result of scanning the mtdparts text for one partition. -/
inductive PartResult where
  | partNotFound
  | noAtSign
  | noSizeSep
  | okNand (offset : Nat)
  | okSize (offset size : Nat)
deriving DecidableEq, Repr

/-- The bracketed token `(name)` searched for (rkflashtool.c:488). -/
def partToken (name : List Char) : List Char := '(' :: (name ++ [')'])

/-- Partition resolution (rkflashtool.c:486-545) on the text `mtd` that
`mtdparts` points at: find the first occurrence of `(name)`, truncate before
it, take the offset from the digits after the last `@`, truncate before that
`@`, then in order: any `-` left in the prefix means size-to-end-of-NAND,
else the size follows the last `,`, else the last `:`, else it is an error. -/
def resolvePart (mtd name : List Char) : PartResult :=
  match findSub mtd (partToken name) with
  | none => .partNotFound
  | some i =>
    let pre := mtd.take i
    match rfind pre '@' with
    | none => .noAtSign
    | some j =>
      let offset := strtoul0 (pre.drop (j + 1))
      let pre2 := pre.take j
      match rfind pre2 '-' with
      | some _ => .okNand offset
      | none =>
        match rfind pre2 ',' with
        | some k => .okSize offset (strtoul0 (pre2.drop (k + 1)))
        | none =>
          match rfind pre2 ':' with
          | some k => .okSize offset (strtoul0 (pre2.drop (k + 1)))
          | none => .noSizeSep

/-- `size = nand->flash_size - offset` (rkflashtool.c:521) in uint32
arithmetic. -/
def nandSize (flashSize offset : Nat) : Nat :=
  (flashSize % 2 ^ 32 + 2 ^ 32 - offset % 2 ^ 32) % 2 ^ 32

/-- Resolution outcome after supplying the NAND flash size. -/
inductive ResolveOut where
  | ok (offset size : Nat)
  | partNotFound
  | noAtSign
  | noSizeSep
deriving DecidableEq, Repr

/-- Full partition resolution: `resolvePart` plus the NAND-info query for the
`-` (to-end-of-device) form. -/
def resolveOut (fs : Nat) (mtd name : List Char) : ResolveOut :=
  match resolvePart mtd name with
  | .okNand off => .ok off (nandSize fs off)
  | .okSize off sz => .ok off sz
  | .partNotFound => .partNotFound
  | .noAtSign => .noAtSign
  | .noSizeSep => .noSizeSep

/-- The literal partition table from the spec's test vector. -/
def mtdTable : List Char :=
  ("(boot)@0x2000(boot),0x4000 (system)@0x6000(system)- ".toList)


/-- Claim C1 counterexample: on the spec's literal table, resolving "boot"
does not yield (0x2000, 0x4000) but a syntax error (no `@` precedes the first
"(boot)" token), resolving "system" hits a size-separator error rather than
the NAND form, and a `-` anywhere in the prefix (not just trailing) selects
the NAND form. -/
theorem C1_counterexample :
    resolveOut 0x10000 mtdTable ("boot".toList) ≠ ResolveOut.ok 0x2000 0x4000
    ∧ resolveOut 0x10000 mtdTable ("boot".toList) = .noAtSign
    ∧ resolveOut 0x10000 mtdTable ("system".toList) = .noSizeSep
    ∧ resolveOut 0x10000 mtdTable ("missing".toList) = .partNotFound
    ∧ resolveOut 0x10000 ("0x100@0x0(a-b)@0x200(x)".toList) ("x".toList) =
        .ok 0x200 (nandSize 0x10000 0x200) := by
  refine ⟨by decide, by decide, by decide, by decide, by decide⟩

/-- Claim C1 (amended): resolution truncates before the first occurrence of
the bracketed token, reads the offset after the last `@` of that prefix,
truncates before the `@`, and then in strict precedence: a `-` anywhere in
the remaining prefix yields the NAND form, else the size follows the last
`,`, else the last `:`, else a size syntax error; a missing token reports
partition-not-found and a missing `@` a syntax error.  On the literal table
"boot" and "system" are syntax errors and "missing" is not found. -/
theorem C1_partition_resolution :
    (∀ (mtd name : List Char) (i j : Nat),
      findSub mtd (partToken name) = some i →
      rfind (mtd.take i) '@' = some j →
      (∀ k, rfind ((mtd.take i).take j) '-' = some k →
        resolvePart mtd name = .okNand (strtoul0 ((mtd.take i).drop (j + 1))))
      ∧ (rfind ((mtd.take i).take j) '-' = none →
          ∀ k, rfind ((mtd.take i).take j) ',' = some k →
            resolvePart mtd name =
              .okSize (strtoul0 ((mtd.take i).drop (j + 1)))
                (strtoul0 (((mtd.take i).take j).drop (k + 1))))
      ∧ (rfind ((mtd.take i).take j) '-' = none →
          rfind ((mtd.take i).take j) ',' = none →
          ∀ k, rfind ((mtd.take i).take j) ':' = some k →
            resolvePart mtd name =
              .okSize (strtoul0 ((mtd.take i).drop (j + 1)))
                (strtoul0 (((mtd.take i).take j).drop (k + 1))))
      ∧ (rfind ((mtd.take i).take j) '-' = none →
          rfind ((mtd.take i).take j) ',' = none →
          rfind ((mtd.take i).take j) ':' = none →
          resolvePart mtd name = .noSizeSep))
    ∧ (∀ mtd name, findSub mtd (partToken name) = none →
        resolvePart mtd name = .partNotFound)
    ∧ (∀ mtd name i, findSub mtd (partToken name) = some i →
        rfind (mtd.take i) '@' = none → resolvePart mtd name = .noAtSign)
    ∧ resolveOut 0x10000 mtdTable ("boot".toList) = .noAtSign
    ∧ resolveOut 0x10000 mtdTable ("system".toList) = .noSizeSep
    ∧ resolveOut 0x10000 mtdTable ("missing".toList) = .partNotFound := by
  refine ⟨?_, ?_, ?_, by decide, by decide, by decide⟩
  · intro mtd name i j hfind hat
    refine ⟨?_, ?_, ?_, ?_⟩
    · intro k hminus
      simp only [resolvePart, hfind, hat, hminus]
    · intro hminus k hcomma
      simp only [resolvePart, hfind, hat, hminus, hcomma]
    · intro hminus hcomma k hcolon
      simp only [resolvePart, hfind, hat, hminus, hcomma, hcolon]
    · intro hminus hcomma hcolon
      simp only [resolvePart, hfind, hat, hminus, hcomma, hcolon]
  · intro mtd name hfind
    simp only [resolvePart, hfind]
  · intro mtd name i hfind hat
    simp only [resolvePart, hfind, hat]

/-- Witness for C1 on a well-formed first-partition entry: the size is taken
after the colon once no `-` or `,` precedes the `@`. -/
theorem C1_partition_resolution_witness :
    resolvePart (":0x40@0x10(p)".toList) ("p".toList) = .okSize 16 64 :=
  ((C1_partition_resolution).1 (":0x40@0x10(p)".toList) ("p".toList) 10 5
      (by decide) (by decide)).2.2.1 (by decide) (by decide) 0 (by decide)

lemma off_incr_eq : RKFT_OFF_INCR = 32 := by norm_num [RKFT_OFF_INCR, RKFT_BLOCKSIZE]

lemma blocksize_eq : RKFT_BLOCKSIZE = 16384 := by norm_num [RKFT_BLOCKSIZE]

/-- One command/transfer exchange of a read loop: opcode, framed offset,
framed sector/byte count, and the payload bytes moved. -/
structure XferOp where
  op : Nat
  off : Int
  count : Int
  bytes : Int
deriving DecidableEq, Repr

/-- Case 'r' (rkflashtool.c:556-577): each iteration sends a READLBA frame for
a full RKFT_OFF_INCR-sector window, receives RKFT_BLOCKSIZE bytes, and
advances by RKFT_OFF_INCR, regardless of how much of the request remains. -/
def flashRead (offset size : Int) : List XferOp :=
  if h : size ≤ 0 then []
  else
    ⟨RKFT_CMD_READLBA, offset, (RKFT_OFF_INCR : Int), (RKFT_BLOCKSIZE : Int)⟩ ::
      flashRead (offset + (RKFT_OFF_INCR : Int)) (size - (RKFT_OFF_INCR : Int))
termination_by size.toNat
decreasing_by
  simp only [off_incr_eq]
  omega

/-- Case 'm' (rkflashtool.c:664-679): window = min(size, RKFT_BLOCKSIZE)
bytes, offset translated by SDRAM_BASE_ADDRESS in the frame. -/
def memRead (offset size : Int) : List XferOp :=
  if h : size ≤ 0 then []
  else
    let sizeRead := if (RKFT_BLOCKSIZE : Int) < size then (RKFT_BLOCKSIZE : Int) else size
    ⟨RKFT_CMD_READSDRAM, offset - SDRAM_BASE_ADDRESS, sizeRead, sizeRead⟩ ::
      memRead (offset + sizeRead) (size - sizeRead)
termination_by size.toNat
decreasing_by
  simp only [blocksize_eq]
  split <;> omega

/-- Case 'i' (rkflashtool.c:704-719): window = min(size, RKFT_IDB_INCR)
sectors, RKFT_IDB_BLOCKSIZE bytes per sector. -/
def idbRead (offset size : Int) : List XferOp :=
  if h : size ≤ 0 then []
  else
    let sizeRead := if (RKFT_IDB_INCR : Int) < size then (RKFT_IDB_INCR : Int) else size
    ⟨RKFT_CMD_READSECTOR, offset, sizeRead, (RKFT_IDB_BLOCKSIZE : Int) * sizeRead⟩ ::
      idbRead (offset + sizeRead) (size - sizeRead)
termination_by size.toNat
decreasing_by
  simp only [RKFT_IDB_INCR]
  split <;> omega

/-- Modelled from the spec: the generic read-loop schema of §4.2 — each
iteration handles window = min(totalCount, maxWindow) and advances by it.
(The `maxW = 0` disjunct only makes the recursion well-founded; every loop
instantiates a positive maxW.) -/
def specReadTrace (maxW : Nat) (off total : Int) : List (Int × Int) :=
  if maxW = 0 ∨ total ≤ 0 then []
  else
    let w := min total (maxW : Int)
    (off, w) :: specReadTrace maxW (off + w) (total - w)
termination_by total.toNat
decreasing_by
  rename_i h
  push_neg at h
  have h1 : 1 ≤ (maxW : Int) := by exact_mod_cast Nat.one_le_iff_ne_zero.mpr h.1
  simp only [min_def]
  split <;> omega

lemma memRead_spec (off size : Int) :
    (memRead off size).map (fun x => (x.op, x.off, x.count, x.bytes)) =
      (specReadTrace RKFT_BLOCKSIZE (off - SDRAM_BASE_ADDRESS) size).map
        (fun p => (RKFT_CMD_READSDRAM, p.1, p.2, p.2)) := by
  induction off, size using memRead.induct with
  | case1 off size h =>
    rw [memRead, specReadTrace]
    simp [h]
  | case2 off size h w ih =>
    have hmin : (if (RKFT_BLOCKSIZE : Int) < size then (RKFT_BLOCKSIZE : Int) else size)
        = min size (RKFT_BLOCKSIZE : Int) := by
      rw [min_def]
      split <;> split <;> omega
    have hww : w = min size (RKFT_BLOCKSIZE : Int) := hmin
    rw [hww] at ih
    have hoff : off + min size (RKFT_BLOCKSIZE : Int) - SDRAM_BASE_ADDRESS =
        off - SDRAM_BASE_ADDRESS + min size (RKFT_BLOCKSIZE : Int) := by ring
    rw [hoff] at ih
    rw [memRead, specReadTrace]
    simp only [dif_neg h,
      if_neg (by simp [blocksize_eq]; omega : ¬(RKFT_BLOCKSIZE = 0 ∨ size ≤ 0)),
      hmin, List.map_cons]
    rw [ih]

lemma idb_incr_eq : RKFT_IDB_INCR = 32 := by norm_num [RKFT_IDB_INCR]

lemma idbRead_spec (off size : Int) :
    (idbRead off size).map (fun x => (x.op, x.off, x.count, x.bytes)) =
      (specReadTrace RKFT_IDB_INCR off size).map
        (fun p => (RKFT_CMD_READSECTOR, p.1, p.2, (RKFT_IDB_BLOCKSIZE : Int) * p.2)) := by
  induction off, size using idbRead.induct with
  | case1 off size h =>
    rw [idbRead, specReadTrace]
    simp [h]
  | case2 off size h w ih =>
    have hmin : (if (RKFT_IDB_INCR : Int) < size then (RKFT_IDB_INCR : Int) else size)
        = min size (RKFT_IDB_INCR : Int) := by
      rw [min_def]
      split <;> split <;> omega
    have hww : w = min size (RKFT_IDB_INCR : Int) := hmin
    rw [hww] at ih
    rw [idbRead, specReadTrace]
    simp only [dif_neg h,
      if_neg (by simp [idb_incr_eq]; omega : ¬(RKFT_IDB_INCR = 0 ∨ size ≤ 0)),
      hmin, List.map_cons]
    rw [ih]

lemma flashRead_fixed (off size : Int) :
    (flashRead off size).all
      (fun x => x.op == RKFT_CMD_READLBA && x.count == (RKFT_OFF_INCR : Int)
        && x.bytes == (RKFT_BLOCKSIZE : Int)) = true := by
  induction off, size using flashRead.induct with
  | case1 off size h =>
    rw [flashRead]
    simp [h]
  | case2 off size h ih =>
    rw [flashRead]
    simp only [dif_neg h, List.all_cons, ih]
    simp

/-- Claim C3 counterexample: the flash read loop at totalCount = 10 sectors
issues one full 32-sector window receiving 16384 bytes, not the
min(10, maxWindow) window of 10 sectors / 5120 bytes the claim requires. -/
theorem C3_counterexample :
    flashRead 0 10 = [⟨RKFT_CMD_READLBA, 0, 32, 16384⟩]
    ∧ flashRead 0 10 ≠ [⟨RKFT_CMD_READLBA, 0, 10, 5120⟩] := by
  have hev : flashRead 0 10 = [⟨RKFT_CMD_READLBA, 0, 32, 16384⟩] := by
    rw [flashRead]
    norm_num [off_incr_eq, blocksize_eq]
    rw [flashRead]
    norm_num
  exact ⟨hev, by rw [hev]; decide⟩

/-- Claim C3 (amended): the RAM and ID-block read loops transfer
window = min(totalCount, maxWindow) units per iteration (receiving
window x unitSize bytes and advancing offset/count by the window), matching
the generic schema; the flash-sector read loop instead always issues the full
fixed 32-sector window and receives RKFT_BLOCKSIZE bytes even when fewer
units remain; for totalCount = 10 and maxWindow = 4 the schema issues windows
[4,4,2] with offsets 0, 4, 8. -/
theorem C3_read_windowing :
    (∀ off size : Int,
      (memRead off size).map (fun x => (x.op, x.off, x.count, x.bytes)) =
        (specReadTrace RKFT_BLOCKSIZE (off - SDRAM_BASE_ADDRESS) size).map
          (fun p => (RKFT_CMD_READSDRAM, p.1, p.2, p.2)))
    ∧ (∀ off size : Int,
      (idbRead off size).map (fun x => (x.op, x.off, x.count, x.bytes)) =
        (specReadTrace RKFT_IDB_INCR off size).map
          (fun p => (RKFT_CMD_READSECTOR, p.1, p.2, (RKFT_IDB_BLOCKSIZE : Int) * p.2)))
    ∧ (∀ off size : Int,
      (flashRead off size).all
        (fun x => x.op == RKFT_CMD_READLBA && x.count == (RKFT_OFF_INCR : Int)
          && x.bytes == (RKFT_BLOCKSIZE : Int)) = true)
    ∧ specReadTrace 4 0 10 = [(0, 4), (4, 4), (8, 2)] := by
  refine ⟨memRead_spec, idbRead_spec, flashRead_fixed, ?_⟩
  rw [specReadTrace]
  norm_num
  rw [specReadTrace]
  norm_num
  rw [specReadTrace]
  norm_num
  rw [specReadTrace]
  norm_num

/-- Outcome of the flash write loop: command frames sent (offset, sector
count), whether the premature end-of-input message was reported, and the
process exit code after the common teardown. -/
structure WriteRun where
  sent : List (Int × Int)
  premature : Bool
  exitCode : Nat
deriving DecidableEq, Repr

/-- Case 'w' (rkflashtool.c:578-601): each iteration first reads a block from
the input; a read returning ≤ 0 bytes prints the premature end-of-input
message and jumps to the common exit label (teardown, return 0); otherwise a
full RKFT_OFF_INCR-sector WRITELBA window is sent.  `reads` lists the byte
counts successive `read` calls return; an exhausted list means end-of-file
(read returns 0). -/
def writeFlash (offset size : Int) (reads : List Int) : WriteRun :=
  if h : size ≤ 0 then ⟨[], false, 0⟩
  else
    match reads with
    | [] => ⟨[], true, 0⟩
    | r :: rest =>
      if r ≤ 0 then ⟨[], true, 0⟩
      else
        let w := writeFlash (offset + (RKFT_OFF_INCR : Int))
          (size - (RKFT_OFF_INCR : Int)) rest
        ⟨(offset, (RKFT_OFF_INCR : Int)) :: w.sent, w.premature, w.exitCode⟩
termination_by size.toNat
decreasing_by
  simp only [off_incr_eq]
  omega

lemma writeFlash_exitCode (offset size : Int) (reads : List Int) :
    (writeFlash offset size reads).exitCode = 0 := by
  induction offset, size, reads using writeFlash.induct with
  | case1 offset size reads h => rw [writeFlash.eq_def]; simp [h]
  | case2 offset size h => rw [writeFlash.eq_def]; simp [h]
  | case3 offset size h r rest hr => rw [writeFlash.eq_def]; simp [h, hr]
  | case4 offset size h r rest hr ih =>
    rw [writeFlash.eq_def]
    simp only [dif_neg h, if_neg hr]
    exact ih

/-- Claim C6 counterexample: with one window requested and the input read
returning 100 bytes (fewer than the full 16384-byte window), the loop does
not stop: it still sends the WRITELBA frame for that window and ends without
the premature-end-of-input report. -/
theorem C6_counterexample :
    (100 : Int) < (RKFT_BLOCKSIZE : Int)
    ∧ writeFlash 0 32 [100] = ⟨[(0, (RKFT_OFF_INCR : Int))], false, 0⟩
    ∧ (writeFlash 0 32 [100]).sent ≠ []
    ∧ (writeFlash 0 32 [100]).premature = false := by
  have hev : writeFlash 0 32 [100] = ⟨[(0, (RKFT_OFF_INCR : Int))], false, 0⟩ := by
    rw [writeFlash.eq_def]
    norm_num [off_incr_eq]
    rw [writeFlash.eq_def]
    norm_num
  refine ⟨by rw [blocksize_eq]; norm_num, hev, by rw [hev]; decide, by rw [hev]⟩

/-- Claim C6 (amended): the write loop stops early only when a read returns
no bytes (≤ 0: end-of-file or error) before totalCount reaches zero; it then
sends no frame for that window, reports premature end of input, still reaches
the common teardown and exits 0 as a clean partial success with exactly the
previously completed windows transmitted.  A read that yields fewer bytes
than a full window but more than zero is still sent as a full window. -/
theorem C6_write_exhaustion :
    (∀ off size : Int, ∀ reads : List Int, (writeFlash off size reads).exitCode = 0)
    ∧ (∀ off size : Int, 0 < size → writeFlash off size [] = ⟨[], true, 0⟩)
    ∧ (∀ off size r : Int, ∀ rest : List Int, 0 < size → r ≤ 0 →
        writeFlash off size (r :: rest) = ⟨[], true, 0⟩)
    ∧ (∀ off size r : Int, ∀ rest : List Int, 0 < size → 0 < r →
        writeFlash off size (r :: rest) =
          ⟨(off, (RKFT_OFF_INCR : Int)) ::
              (writeFlash (off + (RKFT_OFF_INCR : Int))
                (size - (RKFT_OFF_INCR : Int)) rest).sent,
            (writeFlash (off + (RKFT_OFF_INCR : Int))
              (size - (RKFT_OFF_INCR : Int)) rest).premature,
            0⟩) := by
  refine ⟨writeFlash_exitCode, ?_, ?_, ?_⟩
  · intro off size hs
    rw [writeFlash.eq_def]
    simp [show ¬size ≤ 0 by omega]
  · intro off size r rest hs hr
    rw [writeFlash.eq_def]
    simp [show ¬size ≤ 0 by omega, hr]
  · intro off size r rest hs hr
    rw [writeFlash.eq_def]
    simp only [dif_neg (show ¬size ≤ 0 by omega), if_neg (show ¬r ≤ 0 by omega)]
    rw [writeFlash_exitCode]

/-- Witness for C6: a zero-byte read at the first window stops with nothing
sent and premature = true; a positive short read still sends a window; exit
code is always 0. -/
theorem C6_write_exhaustion_witness :
    (writeFlash 0 64 [16384, 100]).exitCode = 0
    ∧ writeFlash 0 64 [] = ⟨[], true, 0⟩
    ∧ writeFlash 32 32 [0] = ⟨[], true, 0⟩
    ∧ writeFlash 0 64 [16384] =
        ⟨(0, (RKFT_OFF_INCR : Int)) ::
            (writeFlash (0 + (RKFT_OFF_INCR : Int))
              (64 - (RKFT_OFF_INCR : Int)) []).sent,
          (writeFlash (0 + (RKFT_OFF_INCR : Int))
            (64 - (RKFT_OFF_INCR : Int)) []).premature,
          0⟩ :=
  ⟨C6_write_exhaustion.1 0 64 [16384, 100],
    C6_write_exhaustion.2.1 0 64 (by norm_num),
    C6_write_exhaustion.2.2.1 32 32 0 [] (by norm_num) (by norm_num),
    C6_write_exhaustion.2.2.2 0 64 16384 [] (by norm_num) (by norm_num)⟩

/-- Case 'e' (rkflashtool.c:740-752): fill the buffer with 0xff once, then
send full WRITELBA windows until size is exhausted. -/
def eraseRun (offset size : Int) : List XferOp :=
  if h : size ≤ 0 then []
  else
    ⟨RKFT_CMD_WRITELBA, offset, (RKFT_OFF_INCR : Int), (RKFT_BLOCKSIZE : Int)⟩ ::
      eraseRun (offset + (RKFT_OFF_INCR : Int)) (size - (RKFT_OFF_INCR : Int))
termination_by size.toNat
decreasing_by
  simp only [off_incr_eq]
  omega

/-- How the dispatcher run ends for a partition-named action. -/
inductive RunEnd where
  | done
  | abortedResolve
  | fatalLen
deriving DecidableEq, Repr

/-- Opcodes of the command frames a dispatcher run sends, and its ending. -/
structure RunTrace where
  ops : List Nat
  ending : RunEnd
deriving DecidableEq, Repr

/-- Commands the tool issues after a successful resolution, per action
(cases 'r', 'w', 'e' with a partition name). -/
def actOps (act : Char) (off sz : Int) (reads : List Int) : List Nat :=
  if act = 'r' then (flashRead off sz).map (fun x => x.op)
  else if act = 'w' then (writeFlash off sz reads).sent.map (fun _ => RKFT_CMD_WRITELBA)
  else if act = 'e' then (eraseRun off sz).map (fun x => x.op)
  else []

/-- The `"mtdparts="` key searched in the parameter text (rkflashtool.c:479). -/
def mtdKey : List Char := ("mtdparts=".toList)

/-- Dispatcher flow for an action with a partition name (rkflashtool.c:449-546
plus the action switch): readiness probe, parameter-sector read, fatal length
check, mtdparts search, partition resolution (the `-` form also queries NAND
info), then the action's transfer loop; every resolution failure jumps to the
exit label having sent nothing further. -/
def runPartResolved (act : Char) (fs : Nat) (reads : List Int)
    (res : PartResult) : RunTrace :=
  let ops0 := [RKFT_CMD_TESTUNITREADY, RKFT_CMD_READLBA]
  match res with
  | .partNotFound => ⟨ops0, .abortedResolve⟩
  | .noAtSign => ⟨ops0, .abortedResolve⟩
  | .noSizeSep => ⟨ops0, .abortedResolve⟩
  | .okNand off =>
    ⟨ops0 ++ RKFT_CMD_READFLASHINFO ::
        actOps act (off : Int) ((nandSize fs off : Nat) : Int) reads, .done⟩
  | .okSize off sz => ⟨ops0 ++ actOps act (off : Int) (sz : Int) reads, .done⟩

def runPart (act : Char) (fs rawLen : Nat) (param name : List Char)
    (reads : List Int) : RunTrace :=
  let ops0 := [RKFT_CMD_TESTUNITREADY, RKFT_CMD_READLBA]
  if paramLenBad rawLen then ⟨ops0, .fatalLen⟩
  else
    match findSub param mtdKey with
    | none => ⟨ops0, .abortedResolve⟩
    | some m => runPartResolved act fs reads (resolvePart (param.drop m) name)

/-- Whether a `PartResult` is a failure to resolve. -/
def partResFailCore : PartResult → Bool
  | .okNand _ => false
  | .okSize _ _ => false
  | _ => true

/-- Resolution failure: no mtdparts clause, no matching bracketed token, or a
missing `@`/size separator. -/
def partResolutionFails (param name : List Char) : Bool :=
  match findSub param mtdKey with
  | none => true
  | some m => partResFailCore (resolvePart (param.drop m) name)

/-- Device-state-changing opcodes of the command catalog. -/
def isMutatingCmd (c : Nat) : Bool :=
  (c == RKFT_CMD_SETDEVICEINFO) || (c == RKFT_CMD_ERASESYSTEMDISK) ||
    (c == RKFT_CMD_SETRESETFLASG) || (c == RKFT_CMD_RESETDEVICE) ||
    (c == RKFT_CMD_WRITESECTOR) || (c == RKFT_CMD_ERASESECTORS) ||
    (c == RKFT_CMD_WRITELBA) || (c == RKFT_CMD_WRITESDRAM) ||
    (c == RKFT_CMD_EXECUTESDRAM) || (c == RKFT_CMD_WRITEEFUSE) ||
    (c == RKFT_CMD_WRITESPARE) || (c == RKFT_CMD_LOWERFORMAT) ||
    (c == RKFT_CMD_WRITENKB)

/-- Claim C7: after any partition-resolution failure the dispatcher issues no
mutating command: the whole trace (the readiness probe and the parameter
sector read) is free of write/erase/state-changing opcodes and the run does
not reach an executing state. -/
theorem C7_no_mutation_on_resolve_failure (act : Char) (fs rawLen : Nat)
    (param name : List Char) (reads : List Int)
    (h : partResolutionFails param name = true) :
    (runPart act fs rawLen param name reads).ops.all
      (fun c => !isMutatingCmd c) = true
    ∧ (runPart act fs rawLen param name reads).ending ≠ .done := by
  unfold runPart
  by_cases hlen : paramLenBad rawLen = true
  · simp only [hlen, if_true]
    exact ⟨rfl, fun hc => RunEnd.noConfusion hc⟩
  · simp only [hlen, Bool.false_eq_true, if_false]
    cases hfind : findSub param mtdKey with
    | none =>
      exact ⟨rfl, fun hc => RunEnd.noConfusion hc⟩
    | some m =>
      show (runPartResolved act fs reads (resolvePart (param.drop m) name)).ops.all
          (fun c => !isMutatingCmd c) = true
        ∧ (runPartResolved act fs reads (resolvePart (param.drop m) name)).ending ≠ .done
      cases hres : resolvePart (param.drop m) name with
      | partNotFound =>
        exact ⟨rfl, fun hc => RunEnd.noConfusion hc⟩
      | noAtSign =>
        exact ⟨rfl, fun hc => RunEnd.noConfusion hc⟩
      | noSizeSep =>
        exact ⟨rfl, fun hc => RunEnd.noConfusion hc⟩
      | okNand off =>
        have hf : partResolutionFails param name = false := by
          unfold partResolutionFails
          rw [hfind]
          show partResFailCore (resolvePart (param.drop m) name) = false
          rw [hres]
          rfl
        rw [h] at hf
        exact Bool.noConfusion hf
      | okSize off sz =>
        have hf : partResolutionFails param name = false := by
          unfold partResolutionFails
          rw [hfind]
          show partResFailCore (resolvePart (param.drop m) name) = false
          rw [hres]
          rfl
        rw [h] at hf
        exact Bool.noConfusion hf

/-- Witness for C7: writing the partition "zzz" against the literal table
(which has no mtdparts clause) aborts with only the probe and the table read
issued. -/
theorem C7_no_mutation_on_resolve_failure_witness :
    (runPart 'w' 65536 0 mtdTable ("zzz".toList) []).ops.all
      (fun c => !isMutatingCmd c) = true
    ∧ (runPart 'w' 65536 0 mtdTable ("zzz".toList) []).ending ≠ .done :=
  C7_no_mutation_on_resolve_failure 'w' 65536 0 mtdTable ("zzz".toList) []
    (by decide)

/-- One raw vendor control transfer of the loader paths. -/
structure CtrlXfer where
  reqIdx : Nat
  data : List Nat
deriving DecidableEq, Repr

/-- Cases 'l' and 'L' (rkflashtool.c:418-446): while a read returns a full
4096-byte chunk, fold it into the running CRC and send it as a control
transfer with request index `idx` (1137 for DDR init, 1138 for the USB
loader); the final shorter (possibly empty) chunk gets the final CRC
appended, high byte first, before being sent. -/
def loaderRun (idx crc : Nat) (input : List Nat) : List CtrlXfer :=
  if h : 4096 ≤ input.length then
    ⟨idx, input.take 4096⟩ ::
      loaderRun idx (rkcrc16 crc (input.take 4096)) (input.drop 4096)
  else
    [⟨idx, input ++ crc16bytes (rkcrc16 crc input)⟩]
termination_by input.length
decreasing_by
  simp only [List.length_drop]
  omega

lemma rkcrc16_append (c : Nat) (a b : List Nat) :
    rkcrc16 (rkcrc16 c a) b = rkcrc16 c (a ++ b) :=
  (List.foldl_append _ _ _ _).symm

lemma loaderRun_join (idx crc : Nat) (input : List Nat) :
    ((loaderRun idx crc input).map (fun t => t.data)).flatten =
      input ++ crc16bytes (rkcrc16 crc input) := by
  induction crc, input using loaderRun.induct idx with
  | case1 crc input h ih =>
    rw [loaderRun]
    simp only [dif_pos h, List.map_cons, List.flatten_cons, ih, rkcrc16_append,
      List.take_append_drop]
    rw [← List.append_assoc, List.take_append_drop]
  | case2 crc input h =>
    rw [loaderRun]
    simp [h]

lemma loaderRun_chunk_lens (idx crc : Nat) (input : List Nat) :
    ((loaderRun idx crc input).dropLast).all
      (fun t => t.data.length == 4096) = true := by
  induction crc, input using loaderRun.induct idx with
  | case1 crc input h ih =>
    rw [loaderRun]
    simp only [dif_pos h]
    have hne : loaderRun idx (rkcrc16 crc (input.take 4096)) (input.drop 4096) ≠ [] := by
      rw [loaderRun.eq_def]
      split <;> simp
    rw [List.dropLast_cons_of_ne_nil hne, List.all_cons, ih]
    simp [List.length_take, h]
  | case2 crc input h =>
    rw [loaderRun]
    simp [h]

lemma loaderRun_req (idx crc : Nat) (input : List Nat) :
    (loaderRun idx crc input).all (fun t => t.reqIdx == idx) = true := by
  induction crc, input using loaderRun.induct idx with
  | case1 crc input h ih =>
    rw [loaderRun]
    simp only [dif_pos h, List.all_cons, ih]
    simp
  | case2 crc input h =>
    rw [loaderRun]
    simp [h]

/-- Claim C8: both loader flows stream the input in 4096-byte chunks over raw
vendor control transfers (request index 1137 or 1138), maintain a running
16-bit CRC over all payload bytes and append it high byte first to the final
(possibly shorter) chunk: every chunk but the last is exactly 4096 payload
bytes and the concatenation of the transmitted bytes is the input followed by
the two CRC bytes of the 0xffff-seeded CRC. -/
theorem C8_loader_stream (idx : Nat) (input : List Nat) :
    ((loaderRun idx 0xffff input).map (fun t => t.data)).flatten =
      input ++ crc16bytes (rkcrc16 0xffff input)
    ∧ ((loaderRun idx 0xffff input).dropLast).all
        (fun t => t.data.length == 4096) = true
    ∧ (loaderRun idx 0xffff input).all (fun t => t.reqIdx == idx) = true :=
  ⟨loaderRun_join idx 0xffff input, loaderRun_chunk_lens idx 0xffff input,
    loaderRun_req idx 0xffff input⟩

/-- `memset(dst, c, n)` on a byte buffer: overwrite the first `n` cells
(clipped to the buffer) with `c`. -/
def memsetList (l : List Nat) (c n : Nat) : List Nat :=
  List.replicate (min n l.length) c ++ l.drop (min n l.length)

/-- A successful full `read` into the front of a buffer. -/
def readInto (l payload : List Nat) : List Nat :=
  payload ++ l.drop payload.length

/-- One iteration of case 'j' (rkflashtool.c:721-738) as written: the call
`memset(ibuf, RKFT_IDB_BLOCKSIZE, 0xff)` passes RKFT_IDB_BLOCKSIZE as the
fill byte (truncated to `unsigned char`, 0x210 % 256 = 0x10) and 0xff as the
count, so it fills only the first 255 cells; the RKFT_IDB_DATASIZE payload is
then read over the front, and the whole RKFT_IDB_BLOCKSIZE buffer sent. -/
def jIteration (prior payload : List Nat) : List Nat :=
  readInto (memsetList prior (RKFT_IDB_BLOCKSIZE % 256) 0xff) payload

set_option maxRecDepth 8192 in
/-- Claim C9: the 'j' iteration does transmit a fixed 528-byte unit carrying
the 512 payload bytes, but the 16 tail bytes beyond the payload are not set
to any constant fill: the swapped-argument memset leaves them at their prior
values, so the transmitted unit depends on prior buffer contents (here tail
byte 520 is 0xAB or 0xCD according to the prior buffer). -/
theorem C9_idb_tail_stale :
    (jIteration (List.replicate RKFT_IDB_BLOCKSIZE 0xAB)
        (List.replicate RKFT_IDB_DATASIZE 0)).length = RKFT_IDB_BLOCKSIZE
    ∧ ((jIteration (List.replicate RKFT_IDB_BLOCKSIZE 0xAB)
        (List.replicate RKFT_IDB_DATASIZE 0)).take RKFT_IDB_DATASIZE =
          List.replicate RKFT_IDB_DATASIZE 0)
    ∧ (jIteration (List.replicate RKFT_IDB_BLOCKSIZE 0xAB)
        (List.replicate RKFT_IDB_DATASIZE 0)).getD 520 0 = 0xAB
    ∧ (jIteration (List.replicate RKFT_IDB_BLOCKSIZE 0xCD)
        (List.replicate RKFT_IDB_DATASIZE 0)).getD 520 0 = 0xCD
    ∧ jIteration (List.replicate RKFT_IDB_BLOCKSIZE 0xAB)
        (List.replicate RKFT_IDB_DATASIZE 0) ≠
      jIteration (List.replicate RKFT_IDB_BLOCKSIZE 0xCD)
        (List.replicate RKFT_IDB_DATASIZE 0) := by
  refine ⟨by decide, by decide, by decide, by decide, by decide⟩
